import Mathlib

/-!
Verification of the Excel search engine core (`backend/server.py`):
text normalization (`normalize_text`), category-gated relevance scoring
(`calculate_relevance_score`) and ranked search (`search_products`).

Strings are modelled as Lean `String` (lists of Unicode characters);
Python's Unicode-aware character classes (`str.lower`, regex `\w`) are
modelled by finite tables that are faithful on ASCII and on the extended
Latin letters exercised here.  Scores are modelled as exact rationals.
-/

set_option maxRecDepth 8192

namespace SearchEngine

/-- Model of Python's `str.lower` as a character map: ASCII uppercase and
the uppercase forms of the extended Latin letters used by the normalizer
map to their lowercase forms; every other character is unchanged. -/
def lowerTable : List (Char × Char) :=
  [('A', 'a'), ('B', 'b'), ('C', 'c'), ('D', 'd'), ('E', 'e'), ('F', 'f'),
   ('G', 'g'), ('H', 'h'), ('I', 'i'), ('J', 'j'), ('K', 'k'), ('L', 'l'),
   ('M', 'm'), ('N', 'n'), ('O', 'o'), ('P', 'p'), ('Q', 'q'), ('R', 'r'),
   ('S', 's'), ('T', 't'), ('U', 'u'), ('V', 'v'), ('W', 'w'), ('X', 'x'),
   ('Y', 'y'), ('Z', 'z'),
   ('Ç', 'ç'), ('Ğ', 'ğ'), ('İ', 'i'), ('Ö', 'ö'), ('Ş', 'ş'), ('Ü', 'ü'),
   ('Â', 'â'), ('Î', 'î'), ('Û', 'û'), ('É', 'é'), ('Ñ', 'ñ')]

/-- The Turkish-accent substitution table of `normalize_text`
(`replacements` in the source): ç→c, ğ→g, ı→i, ö→o, ş→s, ü→u,
â→a, î→i, û→u, é→e. -/
def turkishTable : List (Char × Char) :=
  [('ç', 'c'), ('ğ', 'g'), ('ı', 'i'), ('ö', 'o'), ('ş', 's'), ('ü', 'u'),
   ('â', 'a'), ('î', 'i'), ('û', 'u'), ('é', 'e')]

/-- Apply a character substitution table: the first entry whose key equals
the character gives the replacement, otherwise the character is kept. -/
def applyTable (table : List (Char × Char)) (c : Char) : Char :=
  match table.find? (fun p => p.1 == c) with
  | some p => p.2
  | none => c

/-- Characterwise model of Python `str.lower`. -/
def pyLower (c : Char) : Char := applyTable lowerTable c

/-- Characterwise model of the sequential `text.replace(old, new)` chain
over the `replacements` dict (all replacements are single-character and
produce characters no later replacement touches, so the chain is a map). -/
def replaceTurkish (c : Char) : Char := applyTable turkishTable c

/-- Model of Python's regex class `\s` (ASCII whitespace). -/
def isPySpace (c : Char) : Bool :=
  c == ' ' || c == '\t' || c == '\n' || c == '\r' || c == '\x0b' || c == '\x0c'

/-- Non-ASCII letters included in the model of Python's Unicode-aware
regex class `\w` (which matches any Unicode alphanumeric character, far
beyond ASCII); this finite list stands in for the full Unicode table. -/
def extendedWordChars : List Char :=
  ['ç', 'ğ', 'ı', 'ö', 'ş', 'ü', 'â', 'î', 'û', 'é', 'ñ', 'ß', 'ø', 'æ',
   'å', 'ä', 'ë', 'è', 'ê', 'à', 'á', 'í', 'ó', 'ú', 'ù', 'ò', 'ì', 'ã',
   'õ', 'ý', 'ω', 'α', 'μ']

/-- Model of Python's regex class `\w`: alphanumerics and underscore. -/
def isPyWord (c : Char) : Bool :=
  c.isAlphanum || c == '_' || extendedWordChars.contains c

/-- One character of `re.sub(r'[^\w\s]', ' ', text)`: characters that are
neither word characters nor whitespace become a single space. -/
def keepWordChar (c : Char) : Char := if isPyWord c || isPySpace c then c else ' '

/-- Every whitespace character becomes a plain space (first half of
`re.sub(r'\s+', ' ', text)`). -/
def spaceToBlank (c : Char) : Char := if isPySpace c then ' ' else c

/-- Collapse runs of adjacent spaces to a single space (second half of
`re.sub(r'\s+', ' ', text)`, after `spaceToBlank`). -/
def dedupSpaces : List Char → List Char
  | [] => []
  | [c] => [c]
  | a :: b :: rest =>
      if a == ' ' && b == ' ' then dedupSpaces (b :: rest)
      else a :: dedupSpaces (b :: rest)

/-- `re.sub(r'\s+', ' ', text)`: each maximal whitespace run becomes one space. -/
def collapseSpaces (l : List Char) : List Char := dedupSpaces (l.map spaceToBlank)

/-- Remove trailing whitespace (half of Python `str.strip`). -/
def dropTrailingSpaces : List Char → List Char
  | [] => []
  | a :: rest =>
      let r := dropTrailingSpaces rest
      if r.isEmpty && isPySpace a then [] else a :: r

/-- Python `str.strip`: remove leading and trailing whitespace. -/
def pyStrip (l : List Char) : List Char := dropTrailingSpaces (l.dropWhile isPySpace)

/-- `normalize_text` from the source: empty guard; lowercase; Turkish
accent substitutions; non-word/non-space characters to spaces; whitespace
runs collapsed to single spaces; strip. -/
def normalize_text (text : String) : String :=
  if text = "" then ""
  else String.mk (pyStrip (collapseSpaces
    (((text.data.map pyLower).map replaceTurkish).map keepWordChar)))

/-- Python `str.split()` with no separator: maximal non-whitespace runs,
empties discarded.  Implemented by a right fold carrying the current word. -/
def pySplitCore (l : List Char) : List Char × List String :=
  l.foldr
    (fun c acc =>
      if isPySpace c then
        ([], if acc.1.isEmpty then acc.2 else String.mk acc.1 :: acc.2)
      else (c :: acc.1, acc.2))
    ([], [])

/-- Python `str.split()` on a string. -/
def pySplit (s : String) : List String :=
  let r := pySplitCore s.data
  if r.1.isEmpty then r.2 else String.mk r.1 :: r.2

/-- Does `needle` occur at the head of `haystack`? -/
def charsStartWith : List Char → List Char → Bool
  | [], _ => true
  | _ :: _, [] => false
  | n :: ns, m :: ms => n == m && charsStartWith ns ms

/-- Does `needle` occur contiguously anywhere in `haystack`? -/
def charsContain : List Char → List Char → Bool
  | n, [] => n.isEmpty
  | n, m :: ms => charsStartWith n (m :: ms) || charsContain n ms

/-- Python's substring test `needle in haystack` on strings. -/
def isSub (needle haystack : String) : Bool := charsContain needle.data haystack.data

/-- `color_keywords` from `calculate_relevance_score`. -/
def color_keywords : List String :=
  ["sari", "kirmizi", "yesil", "mavi", "beyaz", "siyah", "turuncu", "mor"]

/-- `voltage_keywords` from `calculate_relevance_score`. -/
def voltage_keywords : List String :=
  ["220v", "24v", "12v", "110v", "380v", "220", "24", "12", "110", "380"]

/-- `product_type_keywords` from `calculate_relevance_score`, including the
source's duplicated `"sensor"` entry. -/
def product_type_keywords : List String :=
  ["led", "ledi", "ledli", "kontaktor", "role", "sensor", "sensor", "buton",
   "lamba", "isik"]

/-- The `related_terms` dict of the product-type gate, in insertion order,
including the duplicated `"sensor"` synonym. -/
def related_terms : List (String × List String) :=
  [("led", ["led", "ledi", "ledli"]),
   ("kontaktor", ["kontaktor", "contactor"]),
   ("role", ["role", "rele", "relay"]),
   ("sensor", ["sensor", "sensor"]),
   ("lamba", ["lamba", "isik", "light"])]

/-- `query_colors = [w for w in query_words if w in color_keywords]`. -/
def query_colors (query_words : List String) : List String :=
  query_words.filter (fun w => decide (w ∈ color_keywords))

/-- `query_voltages = [w for w in query_words if w in voltage_keywords]`. -/
def query_voltages (query_words : List String) : List String :=
  query_words.filter (fun w => decide (w ∈ voltage_keywords))

/-- `query_product_types = [w for w in query_words if w in product_type_keywords]`. -/
def query_product_types (query_words : List String) : List String :=
  query_words.filter (fun w => decide (w ∈ product_type_keywords))

/-- `query_other`: tokens in none of the three keyword tables and of
length greater than one. -/
def query_other (query_words : List String) : List String :=
  query_words.filter (fun w =>
    decide (w ∉ color_keywords ++ voltage_keywords ++ product_type_keywords) &&
    decide (w.length > 1))

/-- `all_text = f"{normalized_desc} {normalized_brand} {normalized_code}"`. -/
def all_text (description brand code : String) : String :=
  normalize_text description ++ " " ++ normalize_text brand ++ " " ++ normalize_text code

/-- The final-score computation of `calculate_relevance_score`: zero when
nothing was required, otherwise `min(total_matches / total_required, 1.0)`. -/
def finalScore (total_matches total_required : ℚ) : ℚ :=
  if total_required = 0 then 0 else min (total_matches / total_required) 1

/-- Award of the other-terms gate for one token, from the source's loop:
`1.0` when the token is a substring of `all_text`, else `0.5` when some
whitespace-split word of `all_text` of length above three, with the token
also of length above three, contains or is contained in the token, else 0. -/
def otherAward (term text : String) : ℚ :=
  if isSub term text then 1
  else if (pySplit text).any (fun word =>
      decide (word.length > 3) && decide (term.length > 3) &&
      (isSub term word || isSub word term)) then 1/2
  else 0

/-- `other_match_ratio = other_matches / len(query_other)`. -/
def otherShare (query_words : List String) (text : String) : ℚ :=
  ((query_other query_words).map (fun t => otherAward t text)).sum /
    ((query_other query_words).length : ℚ)

/-- The other-terms gate and the final-score computation that follows it
(`return 0.0` below a ratio of one half, else accumulate `+ratio`/`+1.0`). -/
def gateOther (query_words : List String) (text : String)
    (total_matches total_required : ℚ) : ℚ :=
  if query_other query_words ≠ [] then
    if otherShare query_words text < 1/2 then 0
    else finalScore (total_matches + otherShare query_words text) (total_required + 1)
  else finalScore total_matches total_required

/-- The related-terms loop of the product-type gate: scan the dict in
order and award `0.8` at the first key equal to the token one of whose
synonyms occurs in `all_text`. -/
def relatedBonus (ptype text : String) : List (String × List String) → ℚ
  | [] => 0
  | (main_term, related_list) :: rest =>
      if ptype = main_term ∧ related_list.any (fun r => isSub r text) then 4/5
      else relatedBonus ptype text rest

/-- Award of the product-type gate for one token: `1.0` for a literal
substring of `all_text`, else the related-terms bonus. -/
def ptypeAward (ptype text : String) : ℚ :=
  if isSub ptype text then 1 else relatedBonus ptype text related_terms

/-- `product_type_match_ratio = product_type_score / len(query_product_types)`. -/
def ptypeShare (query_words : List String) (text : String) : ℚ :=
  ((query_product_types query_words).map (fun p => ptypeAward p text)).sum /
    ((query_product_types query_words).length : ℚ)

/-- The product-type gate: hard-reject below a ratio of `0.7`, else
accumulate `+ratio`/`+1.0` and continue with the other-terms gate. -/
def gatePtype (query_words : List String) (text : String)
    (total_matches total_required : ℚ) : ℚ :=
  if query_product_types query_words ≠ [] then
    if ptypeShare query_words text < 7/10 then 0
    else gateOther query_words text (total_matches + ptypeShare query_words text)
      (total_required + 1)
  else gateOther query_words text total_matches total_required

/-- The voltage gate: if the query names voltages, at least one must occur
as a substring of `all_text`, else the score is zero; on success
`+1.0`/`+1.0`. -/
def gateVoltage (query_words : List String) (text : String)
    (total_matches total_required : ℚ) : ℚ :=
  if query_voltages query_words ≠ [] then
    if (query_voltages query_words).any (fun v => isSub v text) then
      gatePtype query_words text (total_matches + 1) (total_required + 1)
    else 0
  else gatePtype query_words text total_matches total_required

/-- The color gate: if the query names colors, at least one must occur as
a substring of `all_text`, else the score is zero; on success `+1.0`/`+1.0`. -/
def gateColor (query_words : List String) (text : String)
    (total_matches total_required : ℚ) : ℚ :=
  if query_colors query_words ≠ [] then
    if (query_colors query_words).any (fun c => isSub c text) then
      gateVoltage query_words text (total_matches + 1) (total_required + 1)
    else 0
  else gateVoltage query_words text total_matches total_required

/-- `calculate_relevance_score` from the source: normalize and combine the
three entry fields, then run the four gates in source order starting from
empty accumulators. -/
def calculate_relevance_score (query_words : List String)
    (description brand code : String) : ℚ :=
  gateColor query_words (all_text description brand code) 0 0

/-- A stored product row (the fields `search_products` reads). -/
structure ProductRow where
  marka : String
  kod : String
  aciklama : String
deriving Repr, DecidableEq

/-- One scored search result. -/
structure ScoredResult where
  product : ProductRow
  relevance_score : ℚ
deriving Repr, DecidableEq

/-- The search response: ranked results, their count, the echoed query. -/
structure SearchResponse where
  results : List ScoredResult
  total_count : Nat
  query : String
deriving Repr, DecidableEq

/-- Query tokenization in `search_products`: normalize, split on
whitespace, keep tokens of length greater than one. -/
def queryTokens (q : String) : List String :=
  (pySplit (normalize_text q)).filter (fun w => decide (w.length > 1))

/-- `search_products` from the source: empty token list short-circuits to
an empty response; otherwise score every product, keep scores strictly
above `0.5`, and stable-sort descending by score. -/
def search_products (products : List ProductRow) (q : String) : SearchResponse :=
  let query_words := queryTokens q
  if query_words = [] then ⟨[], 0, q⟩
  else
    let scored := (products.filter (fun p =>
        decide ((1:ℚ)/2 < calculate_relevance_score query_words p.aciklama p.marka p.kod))).map
      (fun p => ScoredResult.mk p (calculate_relevance_score query_words p.aciklama p.marka p.kod))
    let sorted := scored.mergeSort (fun a b => decide (b.relevance_score ≤ a.relevance_score))
    ⟨sorted, sorted.length, q⟩

/-- The lowering-then-substitution character map of the normalizer. -/
def normChar (c : Char) : Char := replaceTurkish (pyLower c)

/-! ### Helper lemmas about the character tables -/

theorem applyTable_eq_of_find?_none {t : List (Char × Char)} {c : Char}
    (h : t.find? (fun p => p.1 == c) = none) : applyTable t c = c := by
  unfold applyTable
  rw [h]

theorem applyTable_eq_of_find?_some {t : List (Char × Char)} {c : Char} {p : Char × Char}
    (h : t.find? (fun q => q.1 == c) = some p) : applyTable t c = p.2 := by
  unfold applyTable
  rw [h]

/-- Applying the normalizer's character map twice is the same as applying
it once. -/
theorem normChar_idem (c : Char) : normChar (normChar c) = normChar c := by
  unfold normChar pyLower replaceTurkish
  cases hL : lowerTable.find? (fun p => p.1 == c) with
  | some p =>
      rw [applyTable_eq_of_find?_some hL]
      exact (by decide :
        ∀ q ∈ lowerTable,
          applyTable turkishTable (applyTable lowerTable (applyTable turkishTable q.2)) =
            applyTable turkishTable q.2) p (List.mem_of_find?_eq_some hL)
  | none =>
      rw [applyTable_eq_of_find?_none hL]
      cases hT : turkishTable.find? (fun p => p.1 == c) with
      | some q =>
          rw [applyTable_eq_of_find?_some hT]
          exact (by decide :
            ∀ q ∈ turkishTable,
              applyTable turkishTable (applyTable lowerTable q.2) = q.2) q
            (List.mem_of_find?_eq_some hT)
      | none =>
          rw [applyTable_eq_of_find?_none hT, applyTable_eq_of_find?_none hL,
            applyTable_eq_of_find?_none hT]

/-! ### C9: the empty query token list scores zero -/

/-- C9: for every description, brand and code, `calculate_relevance_score`
applied to an empty query token list returns exactly 0: all four category
groups are empty, no gate runs, `total_required` stays 0, and the
`total_required == 0` branch returns 0. -/
theorem score_empty_query (description brand code : String) :
    calculate_relevance_score [] description brand code = 0 := by
  simp [calculate_relevance_score, gateColor, gateVoltage, gatePtype, gateOther,
    query_colors, query_voltages, query_product_types, query_other, finalScore]

/-! ### C8: degenerate queries produce an empty response -/

/-- C8: whenever normalizing and tokenizing the query string yields an
empty token list (as for empty, whitespace-only or punctuation-only
queries), `search_products` returns an empty result list with
`total_count` 0 and the original query string echoed back verbatim. -/
theorem search_empty_tokens (products : List ProductRow) (q : String)
    (h : queryTokens q = []) :
    search_products products q = ⟨[], 0, q⟩ := by
  unfold search_products
  rw [h]
  rfl

/-- Witness for C8 at the punctuation-only query `" ?!. "` over a
non-empty catalog. -/
theorem search_empty_tokens_witness :
    queryTokens " ?!. " = [] ∧
    search_products [⟨"Siemens", "3RT10", "Sarı LED lamba 24V"⟩] " ?!. " =
      ⟨[], 0, " ?!. "⟩ :=
  ⟨by decide, search_empty_tokens _ _ (by decide)⟩

/-! ### Case-analysis helpers for the gate pipeline -/

/-- Every run of the scorer either rejects with 0 before the product-type
gate or reaches the product-type gate with some accumulators. -/
theorem score_eq_zero_or_gatePtype (qws : List String) (d b c : String) :
    calculate_relevance_score qws d b c = 0 ∨
    ∃ tm tr : ℚ, calculate_relevance_score qws d b c =
      gatePtype qws (all_text d b c) tm tr := by
  unfold calculate_relevance_score gateColor gateVoltage
  split
  · split
    · split
      · split
        · exact Or.inr ⟨_, _, rfl⟩
        · exact Or.inl rfl
      · exact Or.inr ⟨_, _, rfl⟩
    · exact Or.inl rfl
  · split
    · split
      · exact Or.inr ⟨_, _, rfl⟩
      · exact Or.inl rfl
    · exact Or.inr ⟨_, _, rfl⟩

/-- Every run of the scorer either rejects with 0 before the other-terms
gate or reaches the other-terms gate with some accumulators. -/
theorem score_eq_zero_or_gateOther (qws : List String) (d b c : String) :
    calculate_relevance_score qws d b c = 0 ∨
    ∃ tm tr : ℚ, calculate_relevance_score qws d b c =
      gateOther qws (all_text d b c) tm tr := by
  rcases score_eq_zero_or_gatePtype qws d b c with h | ⟨tm, tr, h⟩
  · exact Or.inl h
  · rw [h]
    unfold gatePtype
    split
    · split
      · exact Or.inl rfl
      · exact Or.inr ⟨_, _, rfl⟩
    · exact Or.inr ⟨_, _, rfl⟩

/-! ### C2: the color gate -/

/-- C2: whenever the query's color group is non-empty, the score is 0 if
no query color token occurs as a substring of the combined text, no
matter what the other fields contain; if some color token does occur, the
color gate contributes exactly +1.0 to `total_matches` and +1.0 to
`total_required` and the remaining gates run from those accumulators.  In
particular the query tokens `sari led` against the entry description
`"Kırmızı lamba, halojen, 220V AC"` (with empty brand and code) score
exactly 0. -/
theorem color_gate_spec (qws : List String) (d b c : String)
    (h : query_colors qws ≠ []) :
    ((query_colors qws).any (fun col => isSub col (all_text d b c)) = false →
      calculate_relevance_score qws d b c = 0) ∧
    ((query_colors qws).any (fun col => isSub col (all_text d b c)) = true →
      calculate_relevance_score qws d b c =
        gateVoltage qws (all_text d b c) (0 + 1) (0 + 1)) ∧
    calculate_relevance_score ["sari", "led"] "Kırmızı lamba, halojen, 220V AC" "" "" = 0 := by
  refine ⟨?_, ?_, by decide⟩
  · intro hc
    unfold calculate_relevance_score gateColor
    rw [if_pos h, hc]
    rfl
  · intro hc
    unfold calculate_relevance_score gateColor
    rw [if_pos h, hc]
    rfl

/-- Witness for C2: query token `sari` against a matching yellow entry. -/
theorem color_gate_spec_witness :
    query_colors ["sari"] ≠ [] ∧
    (query_colors ["sari"]).any
      (fun col => isSub col (all_text "sari kablo" "" "")) = true ∧
    calculate_relevance_score ["sari"] "sari kablo" "" "" =
      gateVoltage ["sari"] (all_text "sari kablo" "" "") (0 + 1) (0 + 1) :=
  ⟨by decide, by decide,
    (color_gate_spec ["sari"] "sari kablo" "" "" (by decide)).2.1 (by decide)⟩

/-! ### C3: the product-type gate -/

/-- The product-type award as the spec words it: 1.0 for a literal
substring of the combined text; otherwise, if the token is a recognized
canonical product type (a key of the related-terms table), 0.8 when some
synonym in its related-terms list occurs as a substring; otherwise 0. -/
def specPtypeAward (ptype text : String) : ℚ :=
  if isSub ptype text then 1
  else
    match related_terms.find? (fun pr => pr.1 == ptype) with
    | some pr => if pr.2.any (fun r => isSub r text) then 4/5 else 0
    | none => 0

/-- The source's related-terms loop agrees with a first-key lookup in the
related-terms table (the keys are distinct). -/
theorem relatedBonus_eq_lookup (ptype text : String) :
    relatedBonus ptype text related_terms =
      match related_terms.find? (fun pr => pr.1 == ptype) with
      | some pr => if pr.2.any (fun r => isSub r text) then 4/5 else 0
      | none => 0 := by
  by_cases h1 : ptype = "led"
  · subst h1; simp [relatedBonus, related_terms, List.find?]
  · by_cases h2 : ptype = "kontaktor"
    · subst h2; simp [relatedBonus, related_terms, List.find?]
    · by_cases h3 : ptype = "role"
      · subst h3; simp [relatedBonus, related_terms, List.find?]
      · by_cases h4 : ptype = "sensor"
        · subst h4; simp [relatedBonus, related_terms, List.find?]
        · by_cases h5 : ptype = "lamba"
          · subst h5; simp [relatedBonus, related_terms, List.find?]
          · have e1 : ("led" == ptype) = false :=
              beq_eq_false_iff_ne.mpr (fun hh => h1 hh.symm)
            have e2 : ("kontaktor" == ptype) = false :=
              beq_eq_false_iff_ne.mpr (fun hh => h2 hh.symm)
            have e3 : ("role" == ptype) = false :=
              beq_eq_false_iff_ne.mpr (fun hh => h3 hh.symm)
            have e4 : ("sensor" == ptype) = false :=
              beq_eq_false_iff_ne.mpr (fun hh => h4 hh.symm)
            have e5 : ("lamba" == ptype) = false :=
              beq_eq_false_iff_ne.mpr (fun hh => h5 hh.symm)
            simp [relatedBonus, related_terms, List.find?, e1, e2, e3, e4, e5,
              h1, h2, h3, h4, h5]

/-- C3: whenever the query's product-type group is non-empty, each token
is awarded per `specPtypeAward` (1.0 for a literal substring, else 0.8
via a related-term synonym of a canonical type, else 0); the score is 0
whenever the award ratio is below 0.7; on success the gate adds the ratio
to `total_matches` and 1.0 to `total_required`.  In particular the query
tokens `sari led` against the entry description
`"Sarı lamba, akkor, 24V DC"` (with empty brand and code) score exactly 0. -/
theorem ptype_gate_spec (qws : List String) (d b c : String)
    (h : query_product_types qws ≠ []) :
    (∀ p, ptypeAward p (all_text d b c) = specPtypeAward p (all_text d b c)) ∧
    (ptypeShare qws (all_text d b c) < 7/10 →
      calculate_relevance_score qws d b c = 0) ∧
    (∀ tm tr : ℚ, ¬ ptypeShare qws (all_text d b c) < 7/10 →
      gatePtype qws (all_text d b c) tm tr =
        gateOther qws (all_text d b c) (tm + ptypeShare qws (all_text d b c)) (tr + 1)) ∧
    calculate_relevance_score ["sari", "led"] "Sarı lamba, akkor, 24V DC" "" "" = 0 := by
  have hqc : query_colors ["sari", "led"] = ["sari"] := by decide
  have hqv : query_voltages ["sari", "led"] = [] := by decide
  have hqp : query_product_types ["sari", "led"] = ["led"] := by decide
  have hco : (["sari"] : List String).any
      (fun col => isSub col (all_text "Sarı lamba, akkor, 24V DC" "" "")) = true := by decide
  have hpa : ptypeAward "led" (all_text "Sarı lamba, akkor, 24V DC" "" "") = 0 := by decide
  refine ⟨?_, ?_, ?_, by
    simp [calculate_relevance_score, gateColor, gateVoltage, gatePtype, hqc, hqv, hqp, hco,
      ptypeShare, hpa]⟩
  · intro p
    unfold ptypeAward specPtypeAward
    split
    · rfl
    · exact relatedBonus_eq_lookup p (all_text d b c)
  · intro hr
    rcases score_eq_zero_or_gatePtype qws d b c with h0 | ⟨tm, tr, heq⟩
    · exact h0
    · rw [heq]
      unfold gatePtype
      rw [if_pos h, if_pos hr]
  · intro tm tr hr
    unfold gatePtype
    rw [if_pos h, if_neg hr]

/-- Witness for C3: query token `led` against an entry naming a LED. -/
theorem ptype_gate_spec_witness :
    query_product_types ["led"] ≠ [] ∧
    ¬ ptypeShare ["led"] (all_text "led modul" "" "") < 7/10 ∧
    gatePtype ["led"] (all_text "led modul" "" "") 0 0 =
      gateOther ["led"] (all_text "led modul" "" "")
        (0 + ptypeShare ["led"] (all_text "led modul" "" "")) (0 + 1) := by
  have hqp : query_product_types ["led"] = ["led"] := by decide
  have hpa : ptypeAward "led" (all_text "led modul" "" "") = 1 := by decide
  have hshare : ¬ ptypeShare ["led"] (all_text "led modul" "" "") < 7/10 := by
    simp [ptypeShare, hqp, hpa]
    norm_num
  exact ⟨by decide, hshare,
    (ptype_gate_spec ["led"] "led modul" "" "" (by decide)).2.2.1 0 0 hshare⟩

/-! ### C1: the other-terms gate -/

/-- The other-terms award as the claim words it: 1.0 only when the token
is an exact element of the whitespace-split words of the combined text,
else 0.5 under the long-word containment condition, else 0. -/
def specOtherAwardExact (term text : String) : ℚ :=
  if term ∈ pySplit text then 1
  else if ∃ word ∈ pySplit text,
      word.length > 3 ∧ term.length > 3 ∧ (isSub term word ∨ isSub word term) then 1/2
  else 0

/-- The other-terms award as the source computes it, with the 1.0 branch
phrased as a substring test on the combined text (the amended reading):
1.0 when the token occurs as a substring of the combined text, else 0.5
under the long-word containment condition, else 0. -/
def specOtherAward (term text : String) : ℚ :=
  if isSub term text then 1
  else if ∃ word ∈ pySplit text,
      word.length > 3 ∧ term.length > 3 ∧ (isSub term word ∨ isSub word term) then 1/2
  else 0

/-- Counterexample to C1 as stated: the token `amba` is not an element of
the combined words of the entry `"lamba"` (they are `["lamba"]`), yet the
code awards it 1.0 — it is a substring of the combined text — and the
whole score is 1, where the claim's exact-word award would yield 0.5. -/
theorem other_award_exact_word_counterexample :
    otherAward "amba" (all_text "lamba" "" "") = 1 ∧
    "amba" ∉ pySplit (all_text "lamba" "" "") ∧
    specOtherAwardExact "amba" (all_text "lamba" "" "") = 1/2 ∧
    calculate_relevance_score ["amba"] "lamba" "" "" = 1 := by
  have hqc : query_colors ["amba"] = [] := by decide
  have hqv : query_voltages ["amba"] = [] := by decide
  have hqp : query_product_types ["amba"] = [] := by decide
  have hqo : query_other ["amba"] = ["amba"] := by decide
  have hoa : otherAward "amba" (all_text "lamba" "" "") = 1 := by decide
  have hexact : specOtherAwardExact "amba" (all_text "lamba" "" "") = 1/2 := by
    rw [specOtherAwardExact, if_neg (by decide), if_pos (by decide)]
  refine ⟨hoa, by decide, hexact, ?_⟩
  simp [calculate_relevance_score, gateColor, gateVoltage, gatePtype, gateOther, finalScore,
    hqc, hqv, hqp, hqo, otherShare, hoa]
  norm_num

/-- C1 (amended): whenever the query's `other` group is non-empty, each
token is awarded per `specOtherAward` — 1.0 when it occurs as a substring
of the combined text (not merely as an exact word), else 0.5 when some
combined word of length above three, the token also of length above
three, contains or is contained in the token, else 0; the score is 0
whenever the award ratio is below 0.5; on success the gate adds the ratio
to `total_matches` and 1.0 to `total_required`. -/
theorem other_gate_spec (qws : List String) (d b c : String)
    (h : query_other qws ≠ []) :
    (∀ t, otherAward t (all_text d b c) = specOtherAward t (all_text d b c)) ∧
    (otherShare qws (all_text d b c) < 1/2 →
      calculate_relevance_score qws d b c = 0) ∧
    (∀ tm tr : ℚ, ¬ otherShare qws (all_text d b c) < 1/2 →
      gateOther qws (all_text d b c) tm tr =
        finalScore (tm + otherShare qws (all_text d b c)) (tr + 1)) := by
  refine ⟨?_, ?_, ?_⟩
  · intro t
    simp [otherAward, specOtherAward, List.any_eq_true, Bool.and_eq_true,
      Bool.or_eq_true, decide_eq_true_eq, and_assoc]
  · intro hr
    rcases score_eq_zero_or_gateOther qws d b c with h0 | ⟨tm, tr, heq⟩
    · exact h0
    · rw [heq]
      unfold gateOther
      rw [if_pos h, if_pos hr]
  · intro tm tr hr
    unfold gateOther
    rw [if_pos h, if_neg hr]

/-- Witness for C1 at the non-matching token `kablo` against `vida`. -/
theorem other_gate_spec_witness :
    query_other ["kablo"] ≠ [] ∧
    otherShare ["kablo"] (all_text "vida" "" "") < 1/2 ∧
    calculate_relevance_score ["kablo"] "vida" "" "" = 0 := by
  have hqo : query_other ["kablo"] = ["kablo"] := by decide
  have hoa : otherAward "kablo" (all_text "vida" "" "") = 0 := by decide
  have hshare : otherShare ["kablo"] (all_text "vida" "" "") < 1/2 := by
    simp [otherShare, hqo, hoa]
  exact ⟨by decide, hshare,
    (other_gate_spec ["kablo"] "vida" "" "" (by decide)).2.1 hshare⟩

/-! ### C5: the score lies in [0, 1] -/

theorem relatedBonus_nonneg (p t : String) :
    ∀ l : List (String × List String), 0 ≤ relatedBonus p t l
  | [] => le_refl 0
  | (k, lst) :: rest => by
      unfold relatedBonus
      split
      · norm_num
      · exact relatedBonus_nonneg p t rest

theorem ptypeAward_nonneg (p t : String) : 0 ≤ ptypeAward p t := by
  unfold ptypeAward
  split
  · norm_num
  · exact relatedBonus_nonneg p t related_terms

theorem otherAward_nonneg (term t : String) : 0 ≤ otherAward term t := by
  unfold otherAward
  split
  · norm_num
  · split <;> norm_num

theorem ptypeShare_nonneg (qws : List String) (t : String) : 0 ≤ ptypeShare qws t := by
  unfold ptypeShare
  refine div_nonneg (List.sum_nonneg ?_) (Nat.cast_nonneg _)
  intro x hx
  rcases List.mem_map.mp hx with ⟨p, _, rfl⟩
  exact ptypeAward_nonneg p t

theorem otherShare_nonneg (qws : List String) (t : String) : 0 ≤ otherShare qws t := by
  unfold otherShare
  refine div_nonneg (List.sum_nonneg ?_) (Nat.cast_nonneg _)
  intro x hx
  rcases List.mem_map.mp hx with ⟨p, _, rfl⟩
  exact otherAward_nonneg p t

theorem finalScore_bounds {tm tr : ℚ} (htm : 0 ≤ tm) (htr : 0 ≤ tr) :
    0 ≤ finalScore tm tr ∧ finalScore tm tr ≤ 1 := by
  unfold finalScore
  split
  · exact ⟨le_refl 0, zero_le_one⟩
  · exact ⟨le_min (div_nonneg htm htr) zero_le_one, min_le_right _ _⟩

theorem gateOther_bounds (qws : List String) (t : String) {tm tr : ℚ}
    (htm : 0 ≤ tm) (htr : 0 ≤ tr) :
    0 ≤ gateOther qws t tm tr ∧ gateOther qws t tm tr ≤ 1 := by
  unfold gateOther
  split
  · split
    · exact ⟨le_refl 0, zero_le_one⟩
    · exact finalScore_bounds (add_nonneg htm (otherShare_nonneg qws t))
        (add_nonneg htr zero_le_one)
  · exact finalScore_bounds htm htr

theorem gatePtype_bounds (qws : List String) (t : String) {tm tr : ℚ}
    (htm : 0 ≤ tm) (htr : 0 ≤ tr) :
    0 ≤ gatePtype qws t tm tr ∧ gatePtype qws t tm tr ≤ 1 := by
  unfold gatePtype
  split
  · split
    · exact ⟨le_refl 0, zero_le_one⟩
    · exact gateOther_bounds qws t (add_nonneg htm (ptypeShare_nonneg qws t))
        (add_nonneg htr zero_le_one)
  · exact gateOther_bounds qws t htm htr

theorem gateVoltage_bounds (qws : List String) (t : String) {tm tr : ℚ}
    (htm : 0 ≤ tm) (htr : 0 ≤ tr) :
    0 ≤ gateVoltage qws t tm tr ∧ gateVoltage qws t tm tr ≤ 1 := by
  unfold gateVoltage
  split
  · split
    · exact gatePtype_bounds qws t (add_nonneg htm zero_le_one) (add_nonneg htr zero_le_one)
    · exact ⟨le_refl 0, zero_le_one⟩
  · exact gatePtype_bounds qws t htm htr

/-- C5: for every query token list and entry fields, the relevance score
lies in the closed interval [0, 1]: each hard-reject branch returns 0,
the `total_required == 0` branch returns 0, and the final
`min(total_matches / total_required, 1.0)` is non-negative because every
gate contribution is non-negative. -/
theorem score_in_unit_interval (qws : List String) (d b c : String) :
    0 ≤ calculate_relevance_score qws d b c ∧
      calculate_relevance_score qws d b c ≤ 1 := by
  unfold calculate_relevance_score gateColor
  split
  · split
    · exact gateVoltage_bounds qws _ (add_nonneg (le_refl 0) zero_le_one)
        (add_nonneg (le_refl 0) zero_le_one)
    · exact ⟨le_refl 0, zero_le_one⟩
  · exact gateVoltage_bounds qws _ (le_refl 0) (le_refl 0)

/-! ### C10: the duplicated table entries have no behavioural effect -/

/-- `product_type_keywords` with the duplicated `"sensor"` entry removed. -/
def product_type_keywordsD : List String :=
  ["led", "ledi", "ledli", "kontaktor", "role", "sensor", "buton", "lamba", "isik"]

/-- `related_terms` with the `"sensor"` synonym list deduplicated. -/
def related_termsD : List (String × List String) :=
  [("led", ["led", "ledi", "ledli"]),
   ("kontaktor", ["kontaktor", "contactor"]),
   ("role", ["role", "rele", "relay"]),
   ("sensor", ["sensor"]),
   ("lamba", ["lamba", "isik", "light"])]

/-- Product-type classification over the deduplicated keyword list. -/
def query_product_typesD (query_words : List String) : List String :=
  query_words.filter (fun w => decide (w ∈ product_type_keywordsD))

/-- Other-terms classification over the deduplicated keyword list. -/
def query_otherD (query_words : List String) : List String :=
  query_words.filter (fun w =>
    decide (w ∉ color_keywords ++ voltage_keywords ++ product_type_keywordsD) &&
    decide (w.length > 1))

/-- Other-terms ratio of the deduplicated variant. -/
def otherShareD (query_words : List String) (text : String) : ℚ :=
  ((query_otherD query_words).map (fun t => otherAward t text)).sum /
    ((query_otherD query_words).length : ℚ)

/-- Other-terms gate of the deduplicated variant. -/
def gateOtherD (query_words : List String) (text : String)
    (total_matches total_required : ℚ) : ℚ :=
  if query_otherD query_words ≠ [] then
    if otherShareD query_words text < 1/2 then 0
    else finalScore (total_matches + otherShareD query_words text) (total_required + 1)
  else finalScore total_matches total_required

/-- Product-type award of the deduplicated variant. -/
def ptypeAwardD (ptype text : String) : ℚ :=
  if isSub ptype text then 1 else relatedBonus ptype text related_termsD

/-- Product-type ratio of the deduplicated variant. -/
def ptypeShareD (query_words : List String) (text : String) : ℚ :=
  ((query_product_typesD query_words).map (fun p => ptypeAwardD p text)).sum /
    ((query_product_typesD query_words).length : ℚ)

/-- Product-type gate of the deduplicated variant. -/
def gatePtypeD (query_words : List String) (text : String)
    (total_matches total_required : ℚ) : ℚ :=
  if query_product_typesD query_words ≠ [] then
    if ptypeShareD query_words text < 7/10 then 0
    else gateOtherD query_words text (total_matches + ptypeShareD query_words text)
      (total_required + 1)
  else gateOtherD query_words text total_matches total_required

/-- Voltage gate of the deduplicated variant. -/
def gateVoltageD (query_words : List String) (text : String)
    (total_matches total_required : ℚ) : ℚ :=
  if query_voltages query_words ≠ [] then
    if (query_voltages query_words).any (fun v => isSub v text) then
      gatePtypeD query_words text (total_matches + 1) (total_required + 1)
    else 0
  else gatePtypeD query_words text total_matches total_required

/-- Color gate of the deduplicated variant. -/
def gateColorD (query_words : List String) (text : String)
    (total_matches total_required : ℚ) : ℚ :=
  if query_colors query_words ≠ [] then
    if (query_colors query_words).any (fun c => isSub c text) then
      gateVoltageD query_words text (total_matches + 1) (total_required + 1)
    else 0
  else gateVoltageD query_words text total_matches total_required

/-- The scorer with the duplicated `"sensor"` keyword removed and the
`"sensor"` related-terms list deduplicated. -/
def calculate_relevance_scoreD (query_words : List String)
    (description brand code : String) : ℚ :=
  gateColorD query_words (all_text description brand code) 0 0

theorem mem_product_type_keywordsD_iff (w : String) :
    w ∈ product_type_keywords ↔ w ∈ product_type_keywordsD := by
  simp [product_type_keywords, product_type_keywordsD]

theorem query_product_typesD_eq (qws : List String) :
    query_product_typesD qws = query_product_types qws :=
  List.filter_congr (fun w _ => by
    simp only [decide_eq_decide]
    exact (mem_product_type_keywordsD_iff w).symm)

theorem query_otherD_eq (qws : List String) :
    query_otherD qws = query_other qws :=
  List.filter_congr (fun w _ => by
    have : (w ∉ color_keywords ++ voltage_keywords ++ product_type_keywordsD) ↔
        (w ∉ color_keywords ++ voltage_keywords ++ product_type_keywords) := by
      simp [List.mem_append, mem_product_type_keywordsD_iff]
    rw [decide_eq_decide.mpr this])

theorem relatedBonusD_eq (p t : String) :
    relatedBonus p t related_termsD = relatedBonus p t related_terms := by
  simp [relatedBonus, related_termsD, related_terms]

theorem ptypeAwardD_eq (p t : String) : ptypeAwardD p t = ptypeAward p t := by
  unfold ptypeAwardD ptypeAward
  rw [relatedBonusD_eq]

theorem gateOtherD_eq (qws : List String) (t : String) (tm tr : ℚ) :
    gateOtherD qws t tm tr = gateOther qws t tm tr := by
  unfold gateOtherD gateOther otherShareD otherShare
  rw [query_otherD_eq]

theorem gatePtypeD_eq (qws : List String) (t : String) (tm tr : ℚ) :
    gatePtypeD qws t tm tr = gatePtype qws t tm tr := by
  unfold gatePtypeD gatePtype ptypeShareD ptypeShare
  simp only [query_product_typesD_eq, gateOtherD_eq,
    funext (fun p => ptypeAwardD_eq p t)]

/-- C10: for every query token list and entry fields, the scorer returns
the same value as the variant with the duplicated `"sensor"` keyword
removed and the `"sensor"` related-terms list deduplicated: the duplicate
table entries have no behavioural effect. -/
theorem score_dedup_tables_eq (qws : List String) (d b c : String) :
    calculate_relevance_score qws d b c = calculate_relevance_scoreD qws d b c := by
  unfold calculate_relevance_score calculate_relevance_scoreD gateColor gateColorD
    gateVoltage gateVoltageD
  simp only [gatePtypeD_eq]

/-! ### C4: the ranker keeps exactly the strict-threshold entries, sorted -/

/-- C4: for every catalog and every query with a non-empty token list,
the result list is a permutation of the catalog entries whose relevance
score is strictly greater than 0.5, each paired with its score (so an
entry scoring exactly 0.5 is excluded and any entry scoring above 0.5 is
included), and the list is ordered by score descending.  Concretely, an
entry scoring exactly 1/2 produces an empty result list, while one
scoring 3/4 is returned. -/
theorem search_products_spec (products : List ProductRow) (q : String)
    (h : ¬ queryTokens q = []) :
    (search_products products q).results.Perm
      ((products.filter (fun p =>
        decide ((1:ℚ)/2 <
          calculate_relevance_score (queryTokens q) p.aciklama p.marka p.kod))).map
        (fun p => ScoredResult.mk p
          (calculate_relevance_score (queryTokens q) p.aciklama p.marka p.kod))) ∧
    (search_products products q).results.Pairwise
      (fun a b => b.relevance_score ≤ a.relevance_score) ∧
    calculate_relevance_score ["abcd", "qqqq"] "abcd" "" "" = 1/2 ∧
    search_products [⟨"", "", "abcd"⟩] "abcd qqqq" = ⟨[], 0, "abcd qqqq"⟩ ∧
    calculate_relevance_score ["sari", "abcd", "qqqq"] "sari abcd" "" "" = 3/4 := by
  have hdemo1 : calculate_relevance_score ["abcd", "qqqq"] "abcd" "" "" = 1/2 := by
    have hqc : query_colors ["abcd", "qqqq"] = [] := by decide
    have hqv : query_voltages ["abcd", "qqqq"] = [] := by decide
    have hqp : query_product_types ["abcd", "qqqq"] = [] := by decide
    have hqo : query_other ["abcd", "qqqq"] = ["abcd", "qqqq"] := by decide
    have ha1 : otherAward "abcd" (all_text "abcd" "" "") = 1 := by decide
    have ha2 : otherAward "qqqq" (all_text "abcd" "" "") = 0 := by decide
    have hsh : otherShare ["abcd", "qqqq"] (all_text "abcd" "" "") = 1/2 := by
      simp [otherShare, hqo, ha1, ha2]
    simp [calculate_relevance_score, gateColor, gateVoltage, gatePtype, gateOther, finalScore,
      hqc, hqv, hqp, hqo, hsh]
    norm_num
  have hdemo2 : search_products [⟨"", "", "abcd"⟩] "abcd qqqq" = ⟨[], 0, "abcd qqqq"⟩ := by
    have htok : queryTokens "abcd qqqq" = ["abcd", "qqqq"] := by decide
    simp [search_products, htok, hdemo1]
  have hdemo3 : calculate_relevance_score ["sari", "abcd", "qqqq"] "sari abcd" "" "" = 3/4 := by
    have hqc : query_colors ["sari", "abcd", "qqqq"] = ["sari"] := by decide
    have hqv : query_voltages ["sari", "abcd", "qqqq"] = [] := by decide
    have hqp : query_product_types ["sari", "abcd", "qqqq"] = [] := by decide
    have hqo : query_other ["sari", "abcd", "qqqq"] = ["abcd", "qqqq"] := by decide
    have hco : (["sari"] : List String).any
        (fun col => isSub col (all_text "sari abcd" "" "")) = true := by decide
    have ha1 : otherAward "abcd" (all_text "sari abcd" "" "") = 1 := by decide
    have ha2 : otherAward "qqqq" (all_text "sari abcd" "" "") = 0 := by decide
    have hsh : otherShare ["sari", "abcd", "qqqq"] (all_text "sari abcd" "" "") = 1/2 := by
      simp [otherShare, hqo, ha1, ha2]
    simp [calculate_relevance_score, gateColor, gateVoltage, gatePtype, gateOther, finalScore,
      hqc, hqv, hqp, hqo, hco, hsh]
    norm_num
  refine ⟨?_, ?_, hdemo1, hdemo2, hdemo3⟩
  · simp only [search_products]
    rw [if_neg h]
    exact List.mergeSort_perm _ _
  · simp only [search_products]
    rw [if_neg h]
    refine List.Pairwise.imp ?_ (List.sorted_mergeSort ?_ ?_ _)
    · intro a b hb
      exact of_decide_eq_true hb
    · intro a b c h1 h2
      simp only [decide_eq_true_eq] at h1 h2 ⊢
      exact le_trans h2 h1
    · intro a b
      simp only [Bool.or_eq_true, decide_eq_true_eq]
      exact le_total _ _

/-- Witness for C4 on a one-entry catalog and the query `sari`. -/
theorem search_products_spec_witness :
    ¬ queryTokens "sari" = [] ∧
    (search_products [⟨"A", "1", "sari kablo"⟩] "sari").results.Perm
      ((([⟨"A", "1", "sari kablo"⟩] : List ProductRow).filter (fun p =>
        decide ((1:ℚ)/2 <
          calculate_relevance_score (queryTokens "sari") p.aciklama p.marka p.kod))).map
        (fun p => ScoredResult.mk p
          (calculate_relevance_score (queryTokens "sari") p.aciklama p.marka p.kod))) :=
  ⟨by decide, (search_products_spec [⟨"A", "1", "sari kablo"⟩] "sari" (by decide)).1⟩

/-! ### Character membership in the normalizer's output -/

theorem mem_dedupSpaces : ∀ (l : List Char) (c : Char), c ∈ dedupSpaces l → c ∈ l
  | [], c => by simp [dedupSpaces]
  | [a], c => by simp [dedupSpaces]
  | a :: b :: rest, c => by
      unfold dedupSpaces
      split
      · intro h
        exact List.mem_cons_of_mem a (mem_dedupSpaces (b :: rest) c h)
      · intro h
        rcases List.mem_cons.mp h with h1 | h2
        · exact h1 ▸ List.mem_cons_self a _
        · exact List.mem_cons_of_mem a (mem_dedupSpaces (b :: rest) c h2)

theorem mem_dropTrailingSpaces : ∀ (l : List Char) (c : Char),
    c ∈ dropTrailingSpaces l → c ∈ l
  | [], c => by simp [dropTrailingSpaces]
  | a :: rest, c => by
      simp only [dropTrailingSpaces]
      split
      · intro h
        exact absurd h (List.not_mem_nil c)
      · intro h
        rcases List.mem_cons.mp h with h1 | h2
        · exact h1 ▸ List.mem_cons_self a _
        · exact List.mem_cons_of_mem a (mem_dropTrailingSpaces rest c h2)

/-- Every character of the normalizer's output arises from some input
character by the character pipeline (lower, Turkish substitution,
word-char filter, whitespace-to-blank). -/
theorem chars_of_normalize (s : String) :
    ∀ c ∈ (normalize_text s).data,
      ∃ a ∈ s.data, c = spaceToBlank (keepWordChar (normChar a)) := by
  intro c hc
  unfold normalize_text at hc
  split at hc
  · exact absurd hc (List.not_mem_nil c)
  · unfold pyStrip at hc
    have hc2 : c ∈ collapseSpaces
        (((s.data.map pyLower).map replaceTurkish).map keepWordChar) :=
      List.Sublist.mem (mem_dropTrailingSpaces _ c hc) (List.dropWhile_sublist _)
    unfold collapseSpaces at hc2
    have hc3 := mem_dedupSpaces _ c hc2
    simp only [List.map_map, List.mem_map, Function.comp] at hc3
    rcases hc3 with ⟨a, ha, heq⟩
    exact ⟨a, ha, heq.symm⟩

/-! ### C6: the normalizer's output alphabet -/

/-- On every ASCII character, the character pipeline produces an ASCII
lowercase letter, an ASCII digit, an underscore, or a space. -/
theorem ascii_char_step : ∀ n : Nat, n < 128 →
    ('a' ≤ spaceToBlank (keepWordChar (normChar (Char.ofNat n))) ∧
      spaceToBlank (keepWordChar (normChar (Char.ofNat n))) ≤ 'z') ∨
    ('0' ≤ spaceToBlank (keepWordChar (normChar (Char.ofNat n))) ∧
      spaceToBlank (keepWordChar (normChar (Char.ofNat n))) ≤ '9') ∨
    spaceToBlank (keepWordChar (normChar (Char.ofNat n))) = '_' ∨
    spaceToBlank (keepWordChar (normChar (Char.ofNat n))) = ' ' := by decide

/-- C6 (amended): for every ASCII input string, every character of
`normalize_text text` is an ASCII lowercase letter, an ASCII digit, an
underscore, or a space.  (The restriction to ASCII inputs is forced:
Python's `\w` is Unicode-aware, so non-ASCII letters outside the
substitution table pass through — see the counterexample.) -/
theorem normalize_ascii (s : String) (h : ∀ c ∈ s.data, c.toNat < 128) :
    ∀ c ∈ (normalize_text s).data,
      ('a' ≤ c ∧ c ≤ 'z') ∨ ('0' ≤ c ∧ c ≤ '9') ∨ c = '_' ∨ c = ' ' := by
  intro c hc
  rcases chars_of_normalize s c hc with ⟨a, ha, rfl⟩
  have h1 := ascii_char_step a.toNat (h a ha)
  rwa [Char.ofNat_toNat] at h1

/-- Counterexample to C6 as stated: on the input `"ñ"` the normalizer
returns `"ñ"` unchanged — `ñ` is a Unicode word character, is already
lowercase and is not in the substitution table — so the output is not an
ASCII token stream. -/
theorem normalize_ascii_counterexample :
    ¬ (∀ c ∈ (normalize_text "ñ").data,
      ('a' ≤ c ∧ c ≤ 'z') ∨ ('0' ≤ c ∧ c ≤ '9') ∨ c = '_' ∨ c = ' ') := by decide

/-- Witness for C6 on a representative ASCII input. -/
theorem normalize_ascii_witness :
    (∀ c ∈ ("  Hello,   WORLD_1!  " : String).data, c.toNat < 128) ∧
    ∀ c ∈ (normalize_text "  Hello,   WORLD_1!  ").data,
      ('a' ≤ c ∧ c ≤ 'z') ∨ ('0' ≤ c ∧ c ≤ '9') ∨ c = '_' ∨ c = ' ' :=
  ⟨by decide, normalize_ascii "  Hello,   WORLD_1!  " (by decide)⟩

/-! ### C7: idempotence of the normalizer -/

/-- A character the normalizer can emit: a space, or a non-whitespace
word character fixed by the lower/substitution map. -/
def goodChar (c : Char) : Prop :=
  c = ' ' ∨ (isPyWord c = true ∧ isPySpace c = false ∧ normChar c = c)

/-- No two adjacent plain spaces. -/
def okSpaces : List Char → Bool
  | a :: b :: rest => !(a == ' ' && b == ' ') && okSpaces (b :: rest)
  | _ => true

/-- Does the list end in a whitespace character? -/
def lastBlank : List Char → Bool
  | [] => false
  | [a] => isPySpace a
  | _ :: b :: rest => lastBlank (b :: rest)

theorem goodChar_pipeline (x : Char) :
    goodChar (spaceToBlank (keepWordChar (normChar x))) := by
  unfold goodChar keepWordChar spaceToBlank
  by_cases hw : isPyWord (normChar x) = true <;>
    by_cases hs : isPySpace (normChar x) = true <;>
      simp [hw, hs, normChar_idem, (by decide : isPySpace ' ' = true)]

theorem head?_dedupSpaces : ∀ (x : Char) (xs : List Char),
    (dedupSpaces (x :: xs)).head? = some x
  | x, [] => rfl
  | x, b :: rest => by
      unfold dedupSpaces
      split
      · rename_i hcond
        simp only [Bool.and_eq_true, beq_iff_eq] at hcond
        rw [head?_dedupSpaces b rest, hcond.1, hcond.2]
      · rfl

theorem okSpaces_tail {a : Char} {t : List Char}
    (h : okSpaces (a :: t) = true) : okSpaces t = true := by
  cases t with
  | nil => rfl
  | cons b rest =>
      unfold okSpaces at h
      simp only [Bool.and_eq_true] at h
      exact h.2

theorem okSpaces_dedupSpaces : ∀ l : List Char, okSpaces (dedupSpaces l) = true
  | [] => rfl
  | [c] => rfl
  | a :: b :: rest => by
      unfold dedupSpaces
      split
      · exact okSpaces_dedupSpaces (b :: rest)
      · rename_i hcond
        have hd := head?_dedupSpaces b rest
        have ih := okSpaces_dedupSpaces (b :: rest)
        cases hdd : dedupSpaces (b :: rest) with
        | nil => rw [hdd] at hd; exact absurd hd (by simp)
        | cons d0 ds =>
            rw [hdd] at hd ih
            have hd0 : d0 = b := by simpa using hd
            unfold okSpaces
            rw [Bool.and_eq_true]
            refine ⟨?_, ih⟩
            rw [hd0]
            cases hx : (a == ' ' && b == ' ') with
            | false => rfl
            | true => exact absurd hx hcond

theorem okSpaces_dropWhile {p : Char → Bool} :
    ∀ {l : List Char}, okSpaces l = true → okSpaces (l.dropWhile p) = true
  | [], _ => rfl
  | a :: t, h => by
      rw [List.dropWhile_cons]
      split
      · exact okSpaces_dropWhile (okSpaces_tail h)
      · exact h

theorem dropTrailingSpaces_nil_or_head : ∀ l : List Char,
    dropTrailingSpaces l = [] ∨ (dropTrailingSpaces l).head? = l.head?
  | [] => Or.inl rfl
  | a :: rest => by
      simp only [dropTrailingSpaces]
      split
      · exact Or.inl rfl
      · exact Or.inr rfl

theorem okSpaces_dropTrailingSpaces :
    ∀ {l : List Char}, okSpaces l = true → okSpaces (dropTrailingSpaces l) = true
  | [], _ => rfl
  | a :: rest, h => by
      simp only [dropTrailingSpaces]
      split
      · rfl
      · have ih := okSpaces_dropTrailingSpaces (okSpaces_tail h)
        cases hdd : dropTrailingSpaces rest with
        | nil => exact rfl
        | cons d0 ds =>
            rcases dropTrailingSpaces_nil_or_head rest with hnil | hhd
            · rw [hnil] at hdd; exact absurd hdd (by simp)
            · rw [hdd] at hhd ih
              cases rest with
              | nil => exact absurd hhd.symm (by simp)
              | cons r0 rs =>
                  have hd0 : d0 = r0 := by simpa using hhd
                  unfold okSpaces
                  rw [Bool.and_eq_true]
                  subst hd0
                  refine ⟨?_, ih⟩
                  unfold okSpaces at h
                  simp only [Bool.and_eq_true] at h
                  exact h.1

theorem head_dropWhile_isPySpace : ∀ (l : List Char) (c : Char),
    (l.dropWhile isPySpace).head? = some c → isPySpace c = false
  | [], c => by simp
  | a :: t, c => by
      rw [List.dropWhile_cons]
      split
      · exact head_dropWhile_isPySpace t c
      · rename_i hna
        intro h
        have hac : a = c := by simpa using h
        subst hac
        cases hsa : isPySpace a with
        | false => rfl
        | true => exact absurd hsa hna

theorem lastBlank_dropTrailingSpaces : ∀ l : List Char,
    lastBlank (dropTrailingSpaces l) = false
  | [] => rfl
  | a :: rest => by
      simp only [dropTrailingSpaces]
      split
      · rfl
      · rename_i hcond
        have ih := lastBlank_dropTrailingSpaces rest
        cases hdd : dropTrailingSpaces rest with
        | nil =>
            rw [hdd] at hcond
            simp only [List.isEmpty_nil, Bool.true_and] at hcond
            unfold lastBlank
            cases hsa : isPySpace a with
            | false => rfl
            | true => exact absurd hsa hcond
        | cons d0 ds =>
            rw [hdd] at ih
            unfold lastBlank
            exact ih

theorem head_pyStrip (l : List Char) (c : Char) :
    (pyStrip l).head? = some c → isPySpace c = false := by
  unfold pyStrip
  intro h
  rcases dropTrailingSpaces_nil_or_head (l.dropWhile isPySpace) with hnil | hhd
  · rw [hnil] at h
    exact absurd h (by simp)
  · rw [hhd] at h
    exact head_dropWhile_isPySpace l c h

theorem good_of_normalize (s : String) : ∀ c ∈ (normalize_text s).data, goodChar c := by
  intro c hc
  rcases chars_of_normalize s c hc with ⟨a, _, rfl⟩
  exact goodChar_pipeline a

theorem okSpaces_of_normalize (s : String) : okSpaces (normalize_text s).data = true := by
  unfold normalize_text
  split
  · rfl
  · exact okSpaces_dropTrailingSpaces (okSpaces_dropWhile (okSpaces_dedupSpaces _))

theorem head_of_normalize (s : String) :
    ∀ c, ((normalize_text s).data).head? = some c → isPySpace c = false := by
  intro c
  unfold normalize_text
  split
  · intro h
    exact absurd h (by simp)
  · exact head_pyStrip _ c

theorem lastBlank_of_normalize (s : String) : lastBlank (normalize_text s).data = false := by
  unfold normalize_text
  split
  · rfl
  · exact lastBlank_dropTrailingSpaces _

theorem dedupSpaces_id : ∀ {l : List Char}, okSpaces l = true → dedupSpaces l = l
  | [], _ => rfl
  | [c], _ => rfl
  | a :: b :: rest, h => by
      unfold okSpaces at h
      simp only [Bool.and_eq_true] at h
      unfold dedupSpaces
      split
      · rename_i hx
        rw [hx] at h
        exact absurd h.1 (by decide)
      · rw [dedupSpaces_id h.2]

theorem dropWhile_id_of_head {l : List Char}
    (h : ∀ c, l.head? = some c → isPySpace c = false) :
    l.dropWhile isPySpace = l := by
  cases l with
  | nil => rfl
  | cons a t =>
      rw [List.dropWhile_cons_of_neg]
      simp [h a rfl]

theorem dropTrailingSpaces_id : ∀ {l : List Char},
    lastBlank l = false → dropTrailingSpaces l = l
  | [], _ => rfl
  | [a], h => by
      unfold lastBlank at h
      simp [dropTrailingSpaces, h]
  | a :: b :: t, h => by
      unfold lastBlank at h
      have ih := dropTrailingSpaces_id (l := b :: t) h
      show (if (dropTrailingSpaces (b :: t)).isEmpty && isPySpace a then []
        else a :: dropTrailingSpaces (b :: t)) = a :: b :: t
      rw [ih]
      simp

theorem map_id_of_fix {f : Char → Char} {l : List Char}
    (h : ∀ c ∈ l, f c = c) : l.map f = l := by
  rw [List.map_congr_left h]
  simp

theorem goodChar_normChar {c : Char} (h : goodChar c) : normChar c = c := by
  rcases h with h | h
  · rw [h]; decide
  · exact h.2.2

theorem goodChar_keep {c : Char} (h : goodChar c) : keepWordChar c = c := by
  rcases h with h | h
  · rw [h]; decide
  · unfold keepWordChar
    rw [if_pos]
    rw [h.1]
    simp

theorem goodChar_sTB {c : Char} (h : goodChar c) : spaceToBlank c = c := by
  rcases h with h | h
  · rw [h]; decide
  · unfold spaceToBlank
    rw [if_neg]
    simp [h.2.1]

/-- The normalizer fixes any string made of its output alphabet with no
double spaces and no leading or trailing space. -/
theorem normalize_canonical (L : List Char) (hgood : ∀ c ∈ L, goodChar c)
    (hok : okSpaces L = true)
    (hhead : ∀ c, L.head? = some c → isPySpace c = false)
    (hlast : lastBlank L = false) :
    normalize_text (String.mk L) = String.mk L := by
  unfold normalize_text
  by_cases hL : String.mk L = ""
  · rw [if_pos hL]
    exact hL.symm
  · rw [if_neg hL]
    show String.mk (pyStrip (collapseSpaces
        (((L.map pyLower).map replaceTurkish).map keepWordChar))) = String.mk L
    have h1 : (L.map pyLower).map replaceTurkish = L := by
      rw [List.map_map]
      exact map_id_of_fix (fun c hc => goodChar_normChar (hgood c hc))
    rw [h1, map_id_of_fix (fun c hc => goodChar_keep (hgood c hc))]
    unfold collapseSpaces
    rw [map_id_of_fix (fun c hc => goodChar_sTB (hgood c hc)), dedupSpaces_id hok]
    unfold pyStrip
    rw [dropWhile_id_of_head hhead, dropTrailingSpaces_id hlast]

/-- C7: for every string, `normalize_text (normalize_text x)` equals
`normalize_text x` — the normalizer is idempotent. -/
theorem normalize_text_idempotent (s : String) :
    normalize_text (normalize_text s) = normalize_text s := by
  have hmk : String.mk (normalize_text s).data = normalize_text s := rfl
  calc normalize_text (normalize_text s)
      = normalize_text (String.mk (normalize_text s).data) := by rw [hmk]
    _ = String.mk (normalize_text s).data :=
        normalize_canonical _ (good_of_normalize s) (okSpaces_of_normalize s)
          (head_of_normalize s) (lastBlank_of_normalize s)
    _ = normalize_text s := hmk

end SearchEngine
